import Mathlib

/-!
Verification of `muler/nirspec.py`: the `KeckNIRSPECSpectrum` container and
the `KeckNIRSPECSpectrumList` collection.

Modelling conventions:
* Floating-point sample values are modelled as `Option ℚ`: `none` stands for
  IEEE NaN, `some q` for a finite value.  Infinities are not modelled; every
  theorem that divides guards the divisor away from zero, and `fdiv` maps a
  zero divisor to `none` conservatively.
* The filesystem is an explicit association list from path strings to parsed
  FITS flux tables (for `fits.open` of the flux-table file) and to primary
  headers (for the optional companion header file).  A FITS binary table is a
  list of rows; every column of a row is present by the table format.
* Python exceptions are an explicit error type; fallible code returns
  `Except PyErr`.
* String manipulation (`split`, `[-2:]`, `in`, `replace`, `int(...)`) is
  modelled by structural recursion over the character list of the string,
  with the same semantics as the Python operations on the inputs involved.
-/

namespace Muler

/-- A sample value: `none` models IEEE NaN, `some q` a finite value. -/
abbrev FVal := Option ℚ

/-- NaN-propagating subtraction (`a - b`). -/
def fsub : FVal → FVal → FVal := Option.map₂ (· - ·)

/-- NaN-propagating division (`a / b`).  A zero divisor yields `none`
(IEEE would yield an infinity or NaN; no theorem below depends on this
case, every division in a proved statement has a nonzero divisor). -/
def fdiv (a b : FVal) : FVal :=
  match a, b with
  | some x, some y => if y = 0 then none else some (x / y)
  | _, _ => none

/-- One entry of the per-sample mask, from
`np.isnan(flux) | np.isnan(uncertainty.array) | (uncertainty.array <= 0)`.
Note `NaN <= 0` is `False` in numpy, hence the `none` branch of the
comparison is `false`. -/
def sampleMask (f u : FVal) : Bool :=
  f.isNone || u.isNone ||
    (match u with
     | some v => decide (v ≤ 0)
     | none => false)

/-- The middle element of an (already sorted) list for odd length, the mean
of the two middle elements for even length. -/
def medianOfSorted (s : List ℚ) : ℚ :=
  if s.length % 2 = 1 then s.getD (s.length / 2) 0
  else (s.getD (s.length / 2 - 1) 0 + s.getD (s.length / 2) 0) / 2

/-- `np.median` of a list of (non-NaN) values: sort, take the middle element
for odd length, the mean of the two middle elements for even length; `none`
on the empty list (numpy returns NaN there). -/
def npMedian (xs : List ℚ) : Option ℚ :=
  match xs with
  | [] => none
  | _ :: _ => some (medianOfSorted (xs.insertionSort (· ≤ ·)))

/-- `np.nanmedian`: the median of the non-NaN entries (`none` when all
entries are NaN, as numpy returns NaN there). -/
def npNanmedian (xs : List FVal) : FVal :=
  npMedian (xs.filterMap id)

/-! ## Python string operations, by structural recursion on characters -/

/-- Python `s.split("/")[-1]`: the basename, i.e. the characters after the
last `/` (the whole string when there is no `/`). -/
def basenameChars : List Char → List Char :=
  List.foldl (fun acc c => if c = '/' then [] else acc ++ [c]) []

/-- Python `needle in hay` for strings: substring test. -/
def containsSub (needle : List Char) : List Char → Bool
  | [] => needle.isEmpty
  | c :: t => needle.isPrefixOf (c :: t) || containsSub needle t

/-- Python `hay.split(sep)[0]` for a non-empty `sep`: the characters before
the first occurrence of `sep` (the whole string when `sep` does not occur). -/
def takeBeforeSep (sep : List Char) : List Char → List Char
  | [] => []
  | c :: t => if sep.isPrefixOf (c :: t) then [] else c :: takeBeforeSep sep t

/-- Python `s[-2:]`: the last two characters (the whole string when it is
shorter than two characters). -/
def takeRight2 (cs : List Char) : List Char :=
  cs.drop (cs.length - 2)

/-- Fuel-driven core of Python `hay.replace(pat, rep)`: replace every
non-overlapping occurrence of `pat`, scanning left to right.  Each step
consumes at least one character of `hay` when `pat` is non-empty, so
`hay.length` fuel suffices. -/
def replaceFuel (pat rep : List Char) : Nat → List Char → List Char
  | 0, hay => hay
  | _ + 1, [] => []
  | fuel + 1, c :: t =>
    if pat ≠ [] ∧ pat.isPrefixOf (c :: t) then
      rep ++ replaceFuel pat rep fuel (List.drop (pat.length - 1) t)
    else c :: replaceFuel pat rep fuel t

/-- Python `hay.replace(pat, rep)` (all non-overlapping occurrences,
left to right; both patterns used in the source are non-empty). -/
def pyReplace (hay pat rep : String) : String :=
  String.mk (replaceFuel pat.data rep.data hay.data.length hay.data)

/-- The numeric value of a decimal digit character, `none` otherwise. -/
def digitVal (c : Char) : Option Nat :=
  if c.isDigit then some (c.toNat - 48) else none

/-- The value of a non-empty all-digit character list, `none` otherwise. -/
def digitsVal (cs : List Char) : Option Nat :=
  if cs.isEmpty then none
  else cs.foldl (fun acc c => acc.bind (fun a => (digitVal c).map (fun d => a * 10 + d))) (some 0)

/-- Python `int(s)` on a short string: strip surrounding whitespace, allow
one optional sign, then require a non-empty run of decimal digits.  (Python
additionally allows underscores between digits; on the at-most-two-character
strings this loader parses, every underscore form is invalid in Python too,
so the semantics agree on all inputs that occur.) -/
def pyInt (s : List Char) : Option Int :=
  let cs := ((s.dropWhile Char.isWhitespace).reverse.dropWhile Char.isWhitespace).reverse
  match cs with
  | '+' :: rest => (digitsVal rest).map Int.ofNat
  | '-' :: rest => (digitsVal rest).map (fun n => -(n : Int))
  | rest => (digitsVal rest).map Int.ofNat

/-! ## Data model -/

/-- A parsed primary header of a companion `_flux.fits` file.  Its contents
(RA, DEC, MJD-OBS, WCS keywords) are irrelevant to every claim below; only
its presence or absence matters. -/
structure Header where
  entries : List (String × ℚ)
deriving DecidableEq

/-- One row of the binary table extension of a `_flux_tbl.fits` file:
columns `wave (A)`, `flux (cnts)`, `noise (cnts)`, `sky (cnts)`, `col`.
Every column is present in every row by the FITS binary-table format. -/
structure Row where
  wave : FVal
  flux : FVal
  noise : FVal
  sky : FVal
  col : Int
deriving DecidableEq

/-- The binary table extension (`hdu[1]`) of a flux-table file. -/
structure FluxTable where
  rows : List Row
deriving DecidableEq

/-- The filesystem, as seen by the loader: which paths hold readable
flux-table files, and which paths hold readable companion header files. -/
structure FS where
  tables : List (String × FluxTable)
  headers : List (String × Header)

/-- The metadata dictionary of a spectrum.  The loader only ever uses the
keys `x_values`, `pipeline`, `m`, `header`, `sky`, `flat`; a field value
`none` models the key being absent from the Python dict (so that key access
raises `KeyError`).  The `header` key, when present, may itself hold the
Python value `None` (hence the nested `Option`). -/
structure MetaD (σ : Type) where
  x_values : Option (List Int) := none
  pipeline : Option String := none
  m : Option Int := none
  header : Option (Option Header) := none
  sky : Option σ := none
  flat : Option σ := none

/-- A `KeckNIRSPECSpectrum`: the `Spectrum1D` state relevant to the claims —
spectral axis (Å), flux, standard-deviation uncertainty array (or `None`),
boolean mask (or `None`), WCS (presence only), and the metadata dict
(astropy normalises an absent dict to an empty one). -/
inductive NSpec : Type where
  | mk (spectral_axis : List FVal) (flux : List FVal)
       (uncertainty : Option (List FVal)) (mask : Option (List Bool))
       (wcs : Option Unit) (meta : MetaD NSpec) : NSpec

def NSpec.spectral_axis : NSpec → List FVal
  | .mk a _ _ _ _ _ => a

def NSpec.flux : NSpec → List FVal
  | .mk _ f _ _ _ _ => f

def NSpec.uncertainty : NSpec → Option (List FVal)
  | .mk _ _ u _ _ _ => u

def NSpec.mask : NSpec → Option (List Bool)
  | .mk _ _ _ msk _ _ => msk

def NSpec.wcs : NSpec → Option Unit
  | .mk _ _ _ _ w _ => w

def NSpec.meta : NSpec → MetaD NSpec
  | .mk _ _ _ _ _ md => md

/-- The `wavelength` property: the spectral axis in Å (the flux-table
wavelength column is already in Å, so no conversion happens). -/
def NSpec.wavelength (s : NSpec) : List FVal := s.spectral_axis

/-- Python exceptions raised by the modelled code paths. -/
inductive PyErr where
  | assertionError
  | valueError
  | keyError
deriving DecidableEq

/-- The `pipeline` property: `self.meta["pipeline"]`. -/
def NSpec.pipelineOf (s : NSpec) : Except PyErr String :=
  match s.meta.pipeline with
  | some p => .ok p
  | none => .error .keyError

/-- The `sky` property: `self.meta["sky"]`. -/
def NSpec.skyOf (s : NSpec) : Except PyErr NSpec :=
  match s.meta.sky with
  | some sk => .ok sk
  | none => .error .keyError

/-- The `flat` property: `self.meta["flat"]`. -/
def NSpec.flatOf (s : NSpec) : Except PyErr NSpec :=
  match s.meta.flat with
  | some f => .ok f
  | none => .error .keyError

/-- Access to `self.meta["m"]` (read by no property, but set by the loader). -/
def NSpec.mOf (s : NSpec) : Except PyErr Int :=
  match s.meta.m with
  | some g => .ok g
  | none => .error .keyError

/-! ## Construction from a file (`KeckNIRSPECSpectrum.__init__`, file path) -/

/-- The characters whose `int(...)` becomes the grating order:
`file_basename.split("_flux")[0][-2:]` for `file_basename = file.split("/")[-1]`. -/
def codeStem2 (file : String) : List Char :=
  takeRight2 (takeBeforeSep "_flux".data (basenameChars file.data))

/-- The companion full-header path:
`file.replace("/fitstbl/", "/fits/").replace("_flux_tbl.", "_flux.")`. -/
def companionPath (file : String) : String :=
  pyReplace (pyReplace file "/fitstbl/" "/fits/") "_flux_tbl." "_flux."

/-- The per-sample mask of a table:
`np.isnan(flux) | np.isnan(uncertainty.array) | (uncertainty.array <= 0)`. -/
def maskFromTable (tbl : FluxTable) : List Bool :=
  List.zipWith sampleMask (tbl.rows.map Row.flux) (tbl.rows.map Row.noise)

/-- The metadata dict assembled by the loader (`x_values`, `pipeline`, `m`,
`header`), before the `sky` key is set on the primary container. -/
def metaDict (fs : FS) (file : String) (grating_order : Int) (tbl : FluxTable) : MetaD NSpec :=
  { x_values := some (tbl.rows.map Row.col)
    pipeline := some "NSDRP"
    m := some grating_order
    header := some (fs.headers.lookup (companionPath file)) }

/-- The nested sky spectrum: the `sky` column with the same wavelength,
uncertainty and mask, no WCS, and a copy of the metadata dict (taken before
the `sky` key is set on the primary, so it has no `sky` key itself). -/
def skyFromTable (fs : FS) (file : String) (grating_order : Int) (tbl : FluxTable) : NSpec :=
  .mk (tbl.rows.map Row.wave) (tbl.rows.map Row.sky)
    (some (tbl.rows.map Row.noise)) (some (maskFromTable tbl)) none
    (metaDict fs file grating_order tbl)

/-- The container built from a successfully opened flux table: target arrays
from the `wave`/`flux`/`noise` columns, the mask from `sampleMask`, header
and WCS from the optional companion file, the metadata dict, and the nested
sky spectrum stored under the `sky` metadata key. -/
def buildFromTable (fs : FS) (file : String) (grating_order : Int) (tbl : FluxTable) : NSpec :=
  .mk (tbl.rows.map Row.wave) (tbl.rows.map Row.flux)
    (some (tbl.rows.map Row.noise)) (some (maskFromTable tbl))
    ((fs.headers.lookup (companionPath file)).map (fun _ => ()))
    { metaDict fs file grating_order tbl with
        sky := some (skyFromTable fs file grating_order tbl) }

/-- `KeckNIRSPECSpectrum.__init__` with a `file` argument: assert the
basename starts with `NS.`, assert it contains `_flux_tbl.fits`, parse the
grating order from `file_basename.split("_flux")[0][-2:]` (ValueError when
non-numeric), assert the file exists, open it and build the container. -/
def KeckNIRSPECSpectrum.ofFile (fs : FS) (file : String) : Except PyErr NSpec :=
  let file_basename := basenameChars file.data
  if file_basename.take 3 = "NS.".data then
    if containsSub "_flux_tbl.fits".data file_basename then
      match pyInt (codeStem2 file) with
      | some grating_order =>
        match fs.tables.lookup file with
        | some tbl => .ok (buildFromTable fs file grating_order tbl)
        | none => .error .assertionError
      | none => .error .valueError
    else .error .assertionError
  else .error .assertionError

/-! ## Arithmetic delegated to the base container -/

/-- Modelled from the spec: `subtract(other, handle_meta="first_found")` of
the base spectral container (`muler/echelle.py` / specutils arithmetic are
not under `src/`).  Element-wise flux subtraction; masks combined by
logical or; the first operand's metadata kept (`first_found`).  The
uncertainty combination is delegated to the external collaborator and not
specified by the spec; this model records the variance sum σa² + σb²
(the standard deviation itself is irrational); no claim constrains it. -/
def NSpec.subtract (a b : NSpec) : NSpec :=
  .mk a.spectral_axis (List.zipWith fsub a.flux b.flux)
    (Option.map₂ (List.zipWith (Option.map₂ (fun x y => x * x + y * y))) a.uncertainty b.uncertainty)
    (Option.map₂ (List.zipWith or) a.mask b.mask)
    a.wcs a.meta

/-- Modelled from the spec: `divide(scalar, handle_meta="first_found")` of
the base spectral container (not under `src/`): flux divided element-wise by
the scalar, uncertainty propagated (divided by the scalar's absolute value),
mask kept, the first operand's metadata kept. -/
def NSpec.divide (s : NSpec) (c : FVal) : NSpec :=
  .mk s.spectral_axis (s.flux.map (fun x => fdiv x c))
    (s.uncertainty.map (List.map (fun u => fdiv u (c.map (fun v => |v|)))))
    s.mask s.wcs s.meta

/-- `KeckNIRSPECSpectrum.sky_subtract(force)`: with `force`, subtract the
`sky` metadata spectrum (KeyError when absent); without `force`, log and
return `self` unchanged. -/
def NSpec.sky_subtract (s : NSpec) (force : Bool) : Except PyErr NSpec :=
  if force then
    match s.meta.sky with
    | none => .error .keyError
    | some sky => .ok (s.subtract sky)
  else .ok s

/-! ## The collection (`KeckNIRSPECSpectrumList`) -/

/-- `KeckNIRSPECSpectrumList.read(files)`: for each path in order, assert it
contains `.flux_tbl.fits`, construct the container, abort the whole batch on
the first failure, and wrap the ordered list of containers. -/
def KeckNIRSPECSpectrumList.readFiles (fs : FS) : List String → Except PyErr (List NSpec)
  | [] => .ok []
  | f :: rest =>
    if containsSub ".flux_tbl.fits".data f.data then
      match KeckNIRSPECSpectrum.ofFile fs f with
      | .ok s =>
        match KeckNIRSPECSpectrumList.readFiles fs rest with
        | .ok l => .ok (s :: l)
        | .error e => .error e
      | .error e => .error e
    else .error .assertionError

/-- A path on which `readFiles` does not abort: it passes the
`.flux_tbl.fits` assertion and the container construction succeeds. -/
def validPath (fs : FS) (f : String) : Bool :=
  containsSub ".flux_tbl.fits".data f.data && (KeckNIRSPECSpectrum.ofFile fs f).isOk

/-- `KeckNIRSPECSpectrumList.normalize()`: the NaN-ignoring median of the
first element's flux (IndexError on an empty list, modelled as `none`), then
every element replaced in place by its division by that scalar. -/
def KeckNIRSPECSpectrumList.normalize (L : List NSpec) : Option (List NSpec) :=
  match L with
  | [] => none
  | s0 :: _ =>
    let median_flux := npNanmedian s0.flux
    some (L.map (fun s => s.divide median_flux))

/-- `KeckNIRSPECSpectrumList.stitch()`: concatenate the wavelength sequences
and the flux sequences in collection order and build a fresh container from
them alone (no uncertainty, no mask, no WCS, empty metadata). -/
def KeckNIRSPECSpectrumList.stitch (L : List NSpec) : NSpec :=
  .mk ((L.map NSpec.wavelength).flatten) ((L.map NSpec.flux).flatten)
    none none none {}

/-- A throwaway container, used only as the default of `List.getD`. -/
def dfltSpec : NSpec := .mk [] [] none none none {}

/-! ## Concrete data for witnesses and counterexamples -/

/-- A concrete two-row flux table, for witnesses. -/
def tblW1 : FluxTable :=
  ⟨[⟨some 5, some 2, some 1, some 7, 0⟩, ⟨some 6, none, some 1, some 8, 1⟩]⟩

/-- A concrete path that passes both the `read` assertion (the directory
name contains `.flux_tbl.fits`) and the constructor's basename checks. -/
def pathW1 : String := "d.flux_tbl.fits/NS.t12_flux_tbl.fits"

/-- A concrete filesystem holding `pathW1`, for witnesses. -/
def fsW1 : FS := ⟨[(pathW1, tblW1)], []⟩

/-- The container constructed from `pathW1`, for witnesses. -/
def sW1 : NSpec := buildFromTable fsW1 pathW1 12 tblW1

/-- A container whose only flux sample is NaN (for the C6 counterexample). -/
def s0C6 : NSpec := .mk [some 1] [none] none none none {}

/-- A first element whose flux has NaN-ignoring median 4 (odd count of
finite samples), for the C6 witness. -/
def s0W6 : NSpec :=
  .mk [some 1, some 2, some 3, some 4] [some 2, none, some 4, some 9] none none none {}

/-- A second element, for the C6 witness. -/
def s1W6 : NSpec := .mk [some 1] [some 10] none none none {}

/-- The stem described by the spec's words for C8: the portion of the
basename preceding `_flux_tbl` (for comparison with the code's
`codeStem2`, which splits at the first `_flux` instead). -/
def specStem2 (file : String) : List Char :=
  takeRight2 (takeBeforeSep "_flux_tbl".data (basenameChars file.data))

/-- A file whose basename contains `_flux` before `_flux_tbl` (for the C8
counterexample): the characters preceding `_flux_tbl` end in `xY`, while the
characters preceding the first `_flux` end in `34`. -/
def fileC8 : String := "NS.x34_fluxY_flux_tbl.fits"

/-- A one-row flux table for the C8 counterexample. -/
def tblC8 : FluxTable := ⟨[⟨some 1, some 1, some 1, some 1, 0⟩]⟩

/-- A filesystem holding `fileC8`. -/
def fsC8 : FS := ⟨[(fileC8, tblC8)], []⟩

/-! ## Inversion of the file constructor -/

/-- A successful `ofFile` means: both basename assertions passed, the order
suffix parsed, the table was found, and the result is `buildFromTable`. -/
theorem ofFile_ok_elim {fs : FS} {file : String} {s : NSpec}
    (h : KeckNIRSPECSpectrum.ofFile fs file = .ok s) :
    ∃ g tbl, pyInt (codeStem2 file) = some g ∧
      fs.tables.lookup file = some tbl ∧ s = buildFromTable fs file g tbl := by
  simp only [KeckNIRSPECSpectrum.ofFile] at h
  split at h
  · split at h
    · split at h
      next g heq =>
        split at h
        next tbl heq2 =>
          refine ⟨g, tbl, heq, heq2, ?_⟩
          injection h with h2
          exact h2.symm
        next heq2 => exact Except.noConfusion h
      next heq => exact Except.noConfusion h
    · exact Except.noConfusion h
  · exact Except.noConfusion h

theorem flux_buildFromTable (fs : FS) (file : String) (g : Int) (tbl : FluxTable) :
    (buildFromTable fs file g tbl).flux = tbl.rows.map Row.flux := rfl

theorem axis_buildFromTable (fs : FS) (file : String) (g : Int) (tbl : FluxTable) :
    (buildFromTable fs file g tbl).spectral_axis = tbl.rows.map Row.wave := rfl

theorem unc_buildFromTable (fs : FS) (file : String) (g : Int) (tbl : FluxTable) :
    (buildFromTable fs file g tbl).uncertainty = some (tbl.rows.map Row.noise) := rfl

theorem mask_buildFromTable (fs : FS) (file : String) (g : Int) (tbl : FluxTable) :
    (buildFromTable fs file g tbl).mask = some (maskFromTable tbl) := rfl

theorem sky_buildFromTable (fs : FS) (file : String) (g : Int) (tbl : FluxTable) :
    (buildFromTable fs file g tbl).meta.sky = some (skyFromTable fs file g tbl) := rfl

theorem flux_divide (s : NSpec) (c : FVal) :
    (s.divide c).flux = s.flux.map (fun x => fdiv x c) := rfl

/-- `sampleMask` is true exactly when the flux is NaN, the uncertainty is
NaN, or the uncertainty is a value at most zero. -/
theorem sampleMask_eq_true_iff (f u : FVal) :
    sampleMask f u = true ↔
      (f = none ∨ u = none ∨ ∃ v, u = some v ∧ v ≤ 0) := by
  cases f <;> cases u <;> simp [sampleMask]

/-! ## C1: batch read -/

/-- C1: for a list of paths on which every path is valid (passes the
`.flux_tbl.fits` assertion and constructs), `read` returns exactly one
container per path, in input order; as soon as some path is invalid, `read`
aborts with an exception and returns no collection. -/
theorem read_batch_spec (fs : FS) (files : List String) :
    ((∀ f ∈ files, validPath fs f = true) →
      ∃ l, KeckNIRSPECSpectrumList.readFiles fs files = .ok l ∧
        l.length = files.length ∧
        ∀ i, i < files.length →
          KeckNIRSPECSpectrum.ofFile fs (files.getD i "") = .ok (l.getD i dfltSpec)) ∧
    ((∃ f ∈ files, validPath fs f = false) →
      (KeckNIRSPECSpectrumList.readFiles fs files).isOk = false) := by
  constructor
  · intro hall
    induction files with
    | nil =>
      exact ⟨[], rfl, rfl, fun i hi => absurd hi (by simp)⟩
    | cons f rest ih =>
      have hf := hall f (List.mem_cons_self f rest)
      rw [validPath, Bool.and_eq_true] at hf
      obtain ⟨hsub, hok⟩ := hf
      obtain ⟨s, hs⟩ : ∃ s, KeckNIRSPECSpectrum.ofFile fs f = .ok s := by
        cases hsf : KeckNIRSPECSpectrum.ofFile fs f with
        | ok s => exact ⟨s, rfl⟩
        | error e => rw [hsf] at hok; exact Bool.noConfusion hok
      obtain ⟨l, hl, hlen, hidx⟩ := ih (fun g hg => hall g (List.mem_cons_of_mem f hg))
      refine ⟨s :: l, ?_, by simp [hlen], ?_⟩
      · simp only [KeckNIRSPECSpectrumList.readFiles, hsub, if_true, hs, hl]
      · intro i hi
        cases i with
        | zero => simpa using hs
        | succ j =>
          have hj : j < rest.length := by simpa using hi
          simpa using hidx j hj
  · rintro ⟨g, hg, hbad⟩
    induction files with
    | nil => exact absurd hg (List.not_mem_nil g)
    | cons f rest ih =>
      rcases List.mem_cons.mp hg with rfl | hmem
      · rw [validPath, Bool.and_eq_false_iff] at hbad
        rcases hbad with hsub | hok
        · simp [KeckNIRSPECSpectrumList.readFiles, hsub, Except.isOk, Except.toBool]
        · rcases hs : KeckNIRSPECSpectrum.ofFile fs g with e | s
          · by_cases hc : containsSub ".flux_tbl.fits".data g.data = true
            · simp [KeckNIRSPECSpectrumList.readFiles, hc, hs, Except.isOk, Except.toBool]
            · simp [KeckNIRSPECSpectrumList.readFiles, hc, Except.isOk, Except.toBool]
          · rw [hs] at hok; exact Bool.noConfusion hok
      · have hrest2 := ih hmem
        by_cases hc : containsSub ".flux_tbl.fits".data f.data = true
        · rcases hs : KeckNIRSPECSpectrum.ofFile fs f with e | s
          · simp [KeckNIRSPECSpectrumList.readFiles, hc, hs, Except.isOk, Except.toBool]
          · rcases hrest : KeckNIRSPECSpectrumList.readFiles fs rest with e2 | l2
            · simp [KeckNIRSPECSpectrumList.readFiles, hc, hs, hrest, Except.isOk, Except.toBool]
            · rw [hrest] at hrest2; exact Bool.noConfusion hrest2
        · simp [KeckNIRSPECSpectrumList.readFiles, hc, Except.isOk, Except.toBool]

/-- C1 witness: a two-element batch of valid paths reads to two containers
in order, and a batch whose second path is invalid aborts. -/
theorem read_batch_spec_witness :
    (∃ l, KeckNIRSPECSpectrumList.readFiles fsW1 [pathW1, pathW1] = .ok l ∧
      l.length = ([pathW1, pathW1] : List String).length ∧
      ∀ i, i < ([pathW1, pathW1] : List String).length →
        KeckNIRSPECSpectrum.ofFile fsW1 (([pathW1, pathW1] : List String).getD i "") =
          .ok (l.getD i dfltSpec)) ∧
    (KeckNIRSPECSpectrumList.readFiles fsW1 [pathW1, "bad"]).isOk = false :=
  ⟨(read_batch_spec fsW1 [pathW1, pathW1]).1 (by decide),
   (read_batch_spec fsW1 [pathW1, "bad"]).2 ⟨"bad", by decide, by decide⟩⟩

/-! ## C2: the mask rule -/

/-- The mask entry at index `i` is `sampleMask` of the flux and noise
entries at index `i`. -/
theorem maskFromTable_getD (tbl : FluxTable) (i : Nat) (hi : i < tbl.rows.length) :
    (maskFromTable tbl).getD i false
      = sampleMask ((tbl.rows.map Row.flux).getD i none)
          ((tbl.rows.map Row.noise).getD i none) := by
  have h1 : i < (maskFromTable tbl).length := by
    simp [maskFromTable, hi]
  have hf : i < (tbl.rows.map Row.flux).length := by simpa using hi
  have hn : i < (tbl.rows.map Row.noise).length := by simpa using hi
  rw [List.getD_eq_getElem _ _ h1, List.getD_eq_getElem _ _ hf, List.getD_eq_getElem _ _ hn]
  dsimp only [maskFromTable]
  simp [List.getElem_zipWith]

/-- C2: for a file-constructed container the mask is present, is parallel to
the flux and uncertainty sequences, and is true at exactly those indices
where the flux is NaN, the uncertainty is NaN, or the uncertainty is at most
zero. -/
theorem mask_rule_spec (fs : FS) (file : String) (s : NSpec)
    (h : KeckNIRSPECSpectrum.ofFile fs file = .ok s) :
    ∃ msk u, s.mask = some msk ∧ s.uncertainty = some u ∧
      msk.length = s.flux.length ∧ u.length = s.flux.length ∧
      ∀ i, i < msk.length →
        (msk.getD i false = true ↔
          (s.flux.getD i none = none ∨ u.getD i none = none ∨
           ∃ v, u.getD i none = some v ∧ v ≤ 0)) := by
  obtain ⟨g, tbl, hg, htbl, rfl⟩ := ofFile_ok_elim h
  refine ⟨maskFromTable tbl, tbl.rows.map Row.noise, rfl, rfl, ?_, ?_, ?_⟩
  · show (maskFromTable tbl).length = (tbl.rows.map Row.flux).length
    simp [maskFromTable]
  · show (tbl.rows.map Row.noise).length = (tbl.rows.map Row.flux).length
    simp
  · intro i hi
    have hr : i < tbl.rows.length := by
      simpa [maskFromTable] using hi
    rw [show (buildFromTable fs file g tbl).flux = tbl.rows.map Row.flux from rfl,
        maskFromTable_getD tbl i hr]
    exact sampleMask_eq_true_iff _ _

/-- C2 witness: the concrete two-row table (second row has NaN flux) gives
the mask rule at both indices. -/
theorem mask_rule_spec_witness :
    ∃ msk u, sW1.mask = some msk ∧ sW1.uncertainty = some u ∧
      msk.length = sW1.flux.length ∧ u.length = sW1.flux.length ∧
      ∀ i, i < msk.length →
        (msk.getD i false = true ↔
          (sW1.flux.getD i none = none ∨ u.getD i none = none ∨
           ∃ v, u.getD i none = some v ∧ v ≤ 0)) :=
  mask_rule_spec fsW1 pathW1 sW1 rfl

/-! ## C3: parallel sequence lengths -/

/-- C3: for a container constructed from a table with N rows, the
wavelength, flux, uncertainty and mask sequences all have length N, and so
do those of the nested sky container. -/
theorem parallel_lengths_spec (fs : FS) (file : String) (s : NSpec) (tbl : FluxTable)
    (htbl : fs.tables.lookup file = some tbl)
    (h : KeckNIRSPECSpectrum.ofFile fs file = .ok s) :
    s.spectral_axis.length = tbl.rows.length ∧
    s.flux.length = tbl.rows.length ∧
    (∃ u, s.uncertainty = some u ∧ u.length = tbl.rows.length) ∧
    (∃ msk, s.mask = some msk ∧ msk.length = tbl.rows.length) ∧
    (∃ sk, s.meta.sky = some sk ∧
      sk.spectral_axis.length = tbl.rows.length ∧
      sk.flux.length = tbl.rows.length ∧
      (∃ u2, sk.uncertainty = some u2 ∧ u2.length = tbl.rows.length) ∧
      (∃ m2, sk.mask = some m2 ∧ m2.length = tbl.rows.length)) := by
  obtain ⟨g, tbl2, hg, htbl2, rfl⟩ := ofFile_ok_elim h
  rw [htbl] at htbl2
  injection htbl2 with e
  subst e
  refine ⟨by simp [axis_buildFromTable], by simp [flux_buildFromTable],
    ⟨_, rfl, by simp⟩, ⟨_, rfl, by simp [maskFromTable]⟩,
    ⟨skyFromTable fs file g tbl, rfl, by simp [skyFromTable, NSpec.spectral_axis],
      by simp [skyFromTable, NSpec.flux],
      ⟨_, rfl, by simp⟩, ⟨_, rfl, by simp [maskFromTable]⟩⟩⟩

/-- C3 witness: the concrete two-row table yields sequences of length two
throughout. -/
theorem parallel_lengths_spec_witness :
    sW1.spectral_axis.length = tblW1.rows.length ∧
    sW1.flux.length = tblW1.rows.length ∧
    (∃ u, sW1.uncertainty = some u ∧ u.length = tblW1.rows.length) ∧
    (∃ msk, sW1.mask = some msk ∧ msk.length = tblW1.rows.length) ∧
    (∃ sk, sW1.meta.sky = some sk ∧
      sk.spectral_axis.length = tblW1.rows.length ∧
      sk.flux.length = tblW1.rows.length ∧
      (∃ u2, sk.uncertainty = some u2 ∧ u2.length = tblW1.rows.length) ∧
      (∃ m2, sk.mask = some m2 ∧ m2.length = tblW1.rows.length)) :=
  parallel_lengths_spec fsW1 pathW1 sW1 tblW1 rfl rfl

/-! ## C4: forced sky subtraction -/

/-- `getD` commutes with the element-wise `fsub` of two lists (inside the
common length). -/
theorem getD_zipWith_fsub (a b : List FVal) (i : Nat)
    (hi : i < (List.zipWith fsub a b).length) :
    (List.zipWith fsub a b).getD i none = fsub (a.getD i none) (b.getD i none) := by
  rw [List.length_zipWith] at hi
  have ha : i < a.length := lt_of_lt_of_le hi (min_le_left _ _)
  have hb : i < b.length := lt_of_lt_of_le hi (min_le_right _ _)
  have hz : i < (List.zipWith fsub a b).length := by
    rw [List.length_zipWith]; exact Nat.lt_min.mpr ⟨ha, hb⟩
  rw [List.getD_eq_getElem _ _ hz, List.getD_eq_getElem _ _ ha, List.getD_eq_getElem _ _ hb]
  simp [List.getElem_zipWith]

/-- C4: for a file-constructed container, `sky_subtract(force=True)` returns
a container whose flux is the element-wise difference of the primary flux
and the sky flux (in particular at every unmasked sample), with the first
operand's metadata kept. -/
theorem sky_subtract_force_spec (fs : FS) (file : String) (s : NSpec)
    (h : KeckNIRSPECSpectrum.ofFile fs file = .ok s) :
    ∃ sk t, s.meta.sky = some sk ∧ s.sky_subtract true = .ok t ∧
      t.flux = List.zipWith fsub s.flux sk.flux ∧
      t.flux.length = s.flux.length ∧
      t.meta = s.meta ∧ t.spectral_axis = s.spectral_axis ∧
      ∀ i, i < t.flux.length →
        t.flux.getD i none = fsub (s.flux.getD i none) (sk.flux.getD i none) := by
  obtain ⟨g, tbl, hg, htbl, rfl⟩ := ofFile_ok_elim h
  refine ⟨skyFromTable fs file g tbl, _, rfl, rfl, rfl, ?_, rfl, rfl, ?_⟩
  · show (List.zipWith fsub (tbl.rows.map Row.flux) (tbl.rows.map Row.sky)).length
        = (tbl.rows.map Row.flux).length
    simp
  · intro i hi
    exact getD_zipWith_fsub _ _ i hi

/-- C4 witness: forced sky subtraction on the concrete container. -/
theorem sky_subtract_force_spec_witness :
    ∃ sk t, sW1.meta.sky = some sk ∧ sW1.sky_subtract true = .ok t ∧
      t.flux = List.zipWith fsub sW1.flux sk.flux ∧
      t.flux.length = sW1.flux.length ∧
      t.meta = sW1.meta ∧ t.spectral_axis = sW1.spectral_axis ∧
      ∀ i, i < t.flux.length →
        t.flux.getD i none = fsub (sW1.flux.getD i none) (sk.flux.getD i none) :=
  sky_subtract_force_spec fsW1 pathW1 sW1 rfl

/-! ## C5: sky_subtract without force is the identity -/

/-- C5: `sky_subtract()` without `force` returns the container itself
unchanged (no exception), and doing it twice is the same as doing it once
(idempotence); hence the flux, mask and uncertainty sequences of the result
are value-for-value those of the input. -/
theorem sky_subtract_noop_spec (s : NSpec) :
    s.sky_subtract false = .ok s ∧
    (s.sky_subtract false).bind (fun t => t.sky_subtract false) = s.sky_subtract false := by
  constructor <;> simp [NSpec.sky_subtract, Except.bind]

/-! ## C7: stitching -/

/-- C7: `stitch` returns a fresh container whose wavelength sequence is the
concatenation of the elements' wavelength sequences in collection order,
whose flux sequence is the concatenation of the flux sequences, whose
length is the sum of the elements' lengths, and which has no uncertainty,
no mask, no WCS and empty metadata; on a two-element collection this is the
literal `++` of the two sequences. -/
theorem stitch_concat_spec (L : List NSpec) :
    (KeckNIRSPECSpectrumList.stitch L).spectral_axis = (L.map NSpec.wavelength).flatten ∧
    (KeckNIRSPECSpectrumList.stitch L).flux = (L.map NSpec.flux).flatten ∧
    (KeckNIRSPECSpectrumList.stitch L).spectral_axis.length
      = (L.map (fun s => s.wavelength.length)).sum ∧
    (KeckNIRSPECSpectrumList.stitch L).flux.length
      = (L.map (fun s => s.flux.length)).sum ∧
    (KeckNIRSPECSpectrumList.stitch L).uncertainty = none ∧
    (KeckNIRSPECSpectrumList.stitch L).mask = none ∧
    (KeckNIRSPECSpectrumList.stitch L).wcs = none ∧
    (KeckNIRSPECSpectrumList.stitch L).meta = {} ∧
    (∀ a b : NSpec,
      (KeckNIRSPECSpectrumList.stitch [a, b]).wavelength = a.wavelength ++ b.wavelength ∧
      (KeckNIRSPECSpectrumList.stitch [a, b]).flux = a.flux ++ b.flux) := by
  refine ⟨rfl, rfl, ?_, ?_, rfl, rfl, rfl, rfl, ?_⟩
  · simp only [KeckNIRSPECSpectrumList.stitch, NSpec.spectral_axis, List.length_flatten,
      List.map_map]
    rfl
  · simp only [KeckNIRSPECSpectrumList.stitch, NSpec.flux, List.length_flatten,
      List.map_map]
    rfl
  · intro a b
    constructor <;>
      simp [KeckNIRSPECSpectrumList.stitch, NSpec.wavelength, NSpec.spectral_axis, NSpec.flux]

/-! ## C9: the flat key is never populated -/

/-- C9: the loader never sets the `flat` metadata key, so accessing the
`flat` property of a file-constructed container always raises KeyError. -/
theorem flat_absent_spec (fs : FS) (file : String) (s : NSpec)
    (h : KeckNIRSPECSpectrum.ofFile fs file = .ok s) :
    s.meta.flat = none ∧ s.flatOf = .error .keyError := by
  obtain ⟨g, tbl, hg, htbl, rfl⟩ := ofFile_ok_elim h
  exact ⟨rfl, rfl⟩

/-- C9 witness: the concrete container has no `flat` key and its `flat`
property raises KeyError. -/
theorem flat_absent_spec_witness :
    sW1.meta.flat = none ∧ sW1.flatOf = .error .keyError :=
  flat_absent_spec fsW1 pathW1 sW1 rfl

/-! ## C10: sky nesting is exactly one level deep -/

/-- C10: the metadata dict is copied for the sky container before the `sky`
key is set on the primary, so the sky container has no `sky` key (accessing
`.sky` on it raises KeyError) while its `pipeline` and `m` entries equal the
primary's. -/
theorem sky_nesting_spec (fs : FS) (file : String) (s : NSpec)
    (h : KeckNIRSPECSpectrum.ofFile fs file = .ok s) :
    ∃ sk, s.meta.sky = some sk ∧ sk.meta.sky = none ∧
      sk.skyOf = .error .keyError ∧
      sk.meta.pipeline = s.meta.pipeline ∧ sk.pipelineOf = .ok "NSDRP" ∧
      s.pipelineOf = .ok "NSDRP" ∧
      sk.meta.m = s.meta.m ∧ sk.mOf = s.mOf ∧ sk.mOf.isOk = true := by
  obtain ⟨g, tbl, hg, htbl, rfl⟩ := ofFile_ok_elim h
  exact ⟨skyFromTable fs file g tbl, rfl, rfl, rfl, rfl, rfl, rfl, rfl, rfl, rfl⟩

/-- C10 witness: the concrete container's sky spectrum has no `sky` key but
shares `pipeline` and `m` with the primary. -/
theorem sky_nesting_spec_witness :
    ∃ sk, sW1.meta.sky = some sk ∧ sk.meta.sky = none ∧
      sk.skyOf = .error .keyError ∧
      sk.meta.pipeline = sW1.meta.pipeline ∧ sk.pipelineOf = .ok "NSDRP" ∧
      sW1.pipelineOf = .ok "NSDRP" ∧
      sk.meta.m = sW1.meta.m ∧ sk.mOf = sW1.mOf ∧ sk.mOf.isOk = true :=
  sky_nesting_spec fsW1 pathW1 sW1 rfl

/-! ## The median scales with a division by a nonzero scalar -/

/-- Sorting commutes with division by a positive scalar. -/
theorem insertionSort_map_div_pos (c : ℚ) (hc : 0 < c) (xs : List ℚ) :
    List.insertionSort (· ≤ ·) (xs.map (fun x => x / c))
      = (List.insertionSort (· ≤ ·) xs).map (fun x => x / c) := by
  have hperm : (List.insertionSort (· ≤ ·) (xs.map (fun x => x / c))).Perm
      ((List.insertionSort (· ≤ ·) xs).map (fun x => x / c)) :=
    (List.perm_insertionSort _ _).trans
      (((List.perm_insertionSort (· ≤ ·) xs).map (fun x => x / c)).symm)
  refine List.eq_of_perm_of_sorted hperm (List.sorted_insertionSort _ _) ?_
  exact List.Pairwise.map _
    (fun a b hab => (div_le_div_iff_of_pos_right hc).mpr hab)
    (List.sorted_insertionSort (· ≤ ·) xs)

/-- Sorting after division by a negative scalar reverses the sorted order. -/
theorem insertionSort_map_div_neg (c : ℚ) (hc : c < 0) (xs : List ℚ) :
    List.insertionSort (· ≤ ·) (xs.map (fun x => x / c))
      = ((List.insertionSort (· ≤ ·) xs).map (fun x => x / c)).reverse := by
  have hperm : (List.insertionSort (· ≤ ·) (xs.map (fun x => x / c))).Perm
      (((List.insertionSort (· ≤ ·) xs).map (fun x => x / c)).reverse) :=
    (List.perm_insertionSort _ _).trans
      ((((List.perm_insertionSort (· ≤ ·) xs).map (fun x => x / c)).symm).trans
        ((List.reverse_perm _).symm))
  refine List.eq_of_perm_of_sorted hperm (List.sorted_insertionSort _ _) ?_
  rw [List.Sorted, List.pairwise_reverse]
  exact List.Pairwise.map _
    (fun a b hab => (div_le_div_right_of_neg hc).mpr hab)
    (List.sorted_insertionSort (· ≤ ·) xs)

/-- `getD` on a reversed list reads the mirrored index. -/
theorem getD_reverse (l : List ℚ) (i : Nat) (hi : i < l.length) :
    l.reverse.getD i 0 = l.getD (l.length - 1 - i) 0 := by
  have hir : i < l.reverse.length := by simpa using hi
  have hi2 : l.length - 1 - i < l.length := by omega
  rw [List.getD_eq_getElem _ _ hir, List.getD_eq_getElem _ _ hi2, List.getElem_reverse]

/-- The median of a sorted list is unchanged by reversal (for odd length the
middle element is its own mirror; for even length the two middle elements
swap and their mean is unchanged). -/
theorem medianOfSorted_reverse (s : List ℚ) (hs : s ≠ []) :
    medianOfSorted s.reverse = medianOfSorted s := by
  have hpos : 0 < s.length := List.length_pos.mpr hs
  unfold medianOfSorted
  rw [List.length_reverse]
  by_cases hodd : s.length % 2 = 1
  · rw [if_pos hodd, if_pos hodd]
    have hi : s.length / 2 < s.length := Nat.div_lt_self hpos one_lt_two
    rw [getD_reverse s _ hi]
    congr 1
    omega
  · rw [if_neg hodd, if_neg hodd]
    have hi2 : s.length / 2 < s.length := Nat.div_lt_self hpos one_lt_two
    have hi1 : s.length / 2 - 1 < s.length := lt_of_le_of_lt (Nat.sub_le _ _) hi2
    rw [getD_reverse s _ hi1, getD_reverse s _ hi2]
    have e1 : s.length - 1 - (s.length / 2 - 1) = s.length / 2 := by omega
    have e2 : s.length - 1 - s.length / 2 = s.length / 2 - 1 := by omega
    rw [e1, e2, add_comm]

/-- The median of a nonempty list mapped through division by a nonzero
scalar is the divided median. -/
theorem medianOfSorted_map_div (c : ℚ) (s : List ℚ) (hs : s ≠ []) :
    medianOfSorted (s.map (fun x => x / c)) = medianOfSorted s / c := by
  have hpos : 0 < s.length := List.length_pos.mpr hs
  unfold medianOfSorted
  rw [List.length_map]
  by_cases hodd : s.length % 2 = 1
  · rw [if_pos hodd, if_pos hodd]
    have hi : s.length / 2 < s.length := Nat.div_lt_self hpos one_lt_two
    have him : s.length / 2 < (s.map (fun x => x / c)).length := by simpa using hi
    rw [List.getD_eq_getElem _ _ him, List.getD_eq_getElem _ _ hi, List.getElem_map]
  · rw [if_neg hodd, if_neg hodd]
    have hi2 : s.length / 2 < s.length := Nat.div_lt_self hpos one_lt_two
    have hi1 : s.length / 2 - 1 < s.length := lt_of_le_of_lt (Nat.sub_le _ _) hi2
    have him2 : s.length / 2 < (s.map (fun x => x / c)).length := by simpa using hi2
    have him1 : s.length / 2 - 1 < (s.map (fun x => x / c)).length := by simpa using hi1
    rw [List.getD_eq_getElem _ _ him1, List.getD_eq_getElem _ _ him2,
        List.getD_eq_getElem _ _ hi1, List.getD_eq_getElem _ _ hi2,
        List.getElem_map, List.getElem_map,
        div_add_div_same, div_div, div_div, mul_comm]

/-- `np.median` scales with division by a nonzero scalar. -/
theorem npMedian_map_div (c : ℚ) (hc : c ≠ 0) (xs : List ℚ) :
    npMedian (xs.map (fun x => x / c)) = (npMedian xs).map (fun x => x / c) := by
  cases xs with
  | nil => rfl
  | cons a t =>
    have hsne : List.insertionSort (· ≤ ·) (a :: t) ≠ [] := by
      apply List.ne_nil_of_length_pos
      rw [List.length_insertionSort]
      simp
    have hmne : ((List.insertionSort (· ≤ ·) (a :: t)).map (fun x => x / c)) ≠ [] := by
      simpa using hsne
    show some (medianOfSorted (((a :: t).map (fun x => x / c)).insertionSort (· ≤ ·)))
        = some (medianOfSorted ((a :: t).insertionSort (· ≤ ·)) / c)
    refine congrArg some ?_
    rcases lt_or_gt_of_ne hc with hneg | hpos
    · rw [show ((a :: t).map (fun x => x / c)).insertionSort (· ≤ ·)
            = List.insertionSort (· ≤ ·) ((a :: t).map (fun x => x / c)) from rfl,
          insertionSort_map_div_neg c hneg,
          medianOfSorted_reverse _ hmne,
          medianOfSorted_map_div c _ hsne]
    · rw [show ((a :: t).map (fun x => x / c)).insertionSort (· ≤ ·)
            = List.insertionSort (· ≤ ·) ((a :: t).map (fun x => x / c)) from rfl,
          insertionSort_map_div_pos c hpos,
          medianOfSorted_map_div c _ hsne]

/-- Removing the NaN entries commutes with element-wise `fdiv` by a finite
nonzero scalar. -/
theorem filterMap_map_fdiv (c : ℚ) (hc : c ≠ 0) (xs : List FVal) :
    (xs.map (fun x => fdiv x (some c))).filterMap id
      = (xs.filterMap id).map (fun x => x / c) := by
  induction xs with
  | nil => rfl
  | cons x t ih =>
    cases x with
    | none => simpa [fdiv] using ih
    | some a =>
      have hx : fdiv (some a) (some c) = some (a / c) := by simp [fdiv, hc]
      rw [List.map_cons, hx,
          show List.filterMap id (some (a / c) :: List.map (fun x => fdiv x (some c)) t)
            = (a / c) :: List.filterMap id (List.map (fun x => fdiv x (some c)) t) from rfl,
          show List.filterMap id (some a :: t) = a :: List.filterMap id t from rfl,
          List.map_cons, ih]

/-- `np.nanmedian` scales with element-wise `fdiv` by a finite nonzero
scalar. -/
theorem npNanmedian_map_fdiv (c : ℚ) (hc : c ≠ 0) (xs : List FVal) :
    npNanmedian (xs.map (fun x => fdiv x (some c)))
      = (npNanmedian xs).map (fun x => x / c) := by
  simp only [npNanmedian]
  rw [filterMap_map_fdiv c hc, npMedian_map_div c hc]

/-! ## C6: normalize -/

/-- C6 counterexample: `[s0C6]` is a non-empty collection (its only flux
sample is NaN); `normalize` succeeds on it, dividing by the NaN median, but
afterwards the first element's NaN-ignoring median flux is NaN — not 1.0 —
so the claim's final clause fails on this input. -/
theorem normalize_median_cex :
    KeckNIRSPECSpectrumList.normalize [s0C6] = some [s0C6.divide none] ∧
    (s0C6.divide none).flux = [none] ∧
    npNanmedian ((s0C6.divide none).flux) = none ∧
    npNanmedian ((s0C6.divide none).flux) ≠ some 1 :=
  ⟨rfl, rfl, rfl, by decide⟩

/-- C6 (amended): for a non-empty collection whose first element's
NaN-ignoring median flux is a finite nonzero value `c`, `normalize`
replaces every element, in order, by its division by that same single
scalar `c` (computed before any division), and afterwards the first
element's NaN-ignoring median flux is exactly 1. -/
theorem normalize_median_amended (L : List NSpec) (s0 : NSpec) (rest : List NSpec)
    (hL : L = s0 :: rest) (c : ℚ) (hm : npNanmedian s0.flux = some c) (hc : c ≠ 0) :
    KeckNIRSPECSpectrumList.normalize L = some (L.map (fun s => s.divide (some c))) ∧
    npNanmedian ((s0.divide (some c)).flux) = some 1 := by
  subst hL
  constructor
  · show some ((s0 :: rest).map (fun s => s.divide (npNanmedian s0.flux)))
        = some ((s0 :: rest).map (fun s => s.divide (some c)))
    rw [hm]
  · rw [flux_divide, npNanmedian_map_fdiv c hc, hm]
    show some (c / c) = some 1
    rw [div_self hc]

/-- C6 witness: on a two-element collection whose first element has
NaN-ignoring median flux 4, `normalize` divides both elements by 4 and the
first element's median flux becomes 1. -/
theorem normalize_median_amended_witness :
    KeckNIRSPECSpectrumList.normalize [s0W6, s1W6]
        = some ([s0W6, s1W6].map (fun s => s.divide (some 4))) ∧
    npNanmedian ((s0W6.divide (some 4)).flux) = some 1 :=
  normalize_median_amended [s0W6, s1W6] s0W6 [s1W6] rfl 4 (by decide) (by decide)

/-! ## C8: the grating order -/

/-- C8 counterexample: for `NS.x34_fluxY_flux_tbl.fits` the two characters
of the stem preceding `_flux_tbl` are `xY` — not numeric — yet construction
succeeds and stores `m = 34`, because the code splits the basename at the
FIRST occurrence of `_flux`, not at `_flux_tbl`. -/
theorem grating_order_cex :
    KeckNIRSPECSpectrum.ofFile fsC8 fileC8 = .ok (buildFromTable fsC8 fileC8 34 tblC8) ∧
    (buildFromTable fsC8 fileC8 34 tblC8).meta.m = some 34 ∧
    specStem2 fileC8 = ['x', 'Y'] ∧
    pyInt (specStem2 fileC8) = none :=
  ⟨rfl, rfl, by decide, by decide⟩

/-- C8 (amended): the metadata entry `m` equals the integer parsed from the
last two characters of the basename's prefix before the first occurrence of
`_flux` (which is the prefix before `_flux_tbl` whenever `_flux` does not
occur earlier), and when those two characters do not parse as an integer the
construction fails and no container is returned. -/
theorem grating_order_amended (fs : FS) (file : String) :
    (∀ s, KeckNIRSPECSpectrum.ofFile fs file = .ok s →
      s.meta.m = pyInt (codeStem2 file)) ∧
    (pyInt (codeStem2 file) = none →
      (KeckNIRSPECSpectrum.ofFile fs file).isOk = false) := by
  constructor
  · intro s h
    obtain ⟨g, tbl, hg, htbl, rfl⟩ := ofFile_ok_elim h
    rw [hg]
    rfl
  · intro hn
    simp only [KeckNIRSPECSpectrum.ofFile]
    split
    · split
      · rw [hn]
        rfl
      · rfl
    · rfl

/-- C8 witness: the concrete valid path has `m = int("12")`, and a path
whose order suffix is `xY` fails to construct. -/
theorem grating_order_amended_witness :
    sW1.meta.m = pyInt (codeStem2 pathW1) ∧
    (KeckNIRSPECSpectrum.ofFile fsW1 "NS.xY_flux_tbl.fits").isOk = false :=
  ⟨(grating_order_amended fsW1 pathW1).1 sW1 rfl,
   (grating_order_amended fsW1 "NS.xY_flux_tbl.fits").2 (by decide)⟩

end Muler
